import Mathlib

/-
Verification of the speech-turn pipeline (whisper.cpp STT stage, Piper TTS
stage) of the buddy repository, against its natural-language specification.

The embedding models, from src/server/stt_whisper.py:
  - WhisperSTTProcessor._pcm_to_wav   (pure WAV encoder)        -> pcm_to_wav
  - WhisperSTTProcessor._transcribe   (recognition call)        -> transcribe
  - WhisperSTTProcessor.process_frame (the aggregator's step)   -> process_frame_stt
and from src/server/tts_piper.py:
  - PiperTTSProcessor._synthesize_and_emit                      -> synthesize_and_emit
  - PiperTTSProcessor.process_frame                             -> process_frame_tts

Python byte strings are lists of naturals; frames are inductive types; the
HTTP environment (status, JSON body, timeout, connection error) and the
synthesis engine are explicit parameters, so each handler is a pure function
from state and event to state and emitted frames.
-/

namespace Buddy

/-- pyStrip models Python str.strip with no argument: it removes leading and
trailing whitespace characters. -/
def pyStrip (s : String) : String :=
  String.mk (((s.data.dropWhile Char.isWhitespace).reverse.dropWhile
    Char.isWhitespace).reverse)

/-- packLE models struct.pack with a little-endian unsigned format: the low
byte first, one list element per byte. -/
def packLE : Nat → Nat → List Nat
  | 0, _ => []
  | n + 1, v => v % 256 :: packLE n (v / 256)

/-- unpackLE reads a little-endian byte list back into a natural number. -/
def unpackLE : List Nat → Nat
  | [] => 0
  | b :: bs => b + 256 * unpackLE bs

/-- pcm_to_wav embeds WhisperSTTProcessor._pcm_to_wav: the RIFF/WAVE header
written field by field, then the raw PCM payload. struct.pack raises when a
value does not fit its field, so the function returns none exactly when one
of the packed values is out of range; num_channels is the literal 1 of the
source. -/
def pcm_to_wav (pcm_data : List Nat) (sample_rate : Nat) (bits_per_sample : Nat) :
    Option (List Nat) :=
  let num_channels := 1
  let byte_rate := sample_rate * num_channels * bits_per_sample / 8
  let block_align := num_channels * bits_per_sample / 8
  let data_size := pcm_data.length
  if 36 + data_size < 2 ^ 32 ∧ sample_rate < 2 ^ 32 ∧ byte_rate < 2 ^ 32 ∧
      block_align < 2 ^ 16 ∧ bits_per_sample < 2 ^ 16 then
    some ([82, 73, 70, 70] ++ packLE 4 (36 + data_size) ++
      [87, 65, 86, 69] ++ [102, 109, 116, 32] ++ packLE 4 16 ++
      packLE 2 1 ++ packLE 2 num_channels ++ packLE 4 sample_rate ++
      packLE 4 byte_rate ++ packLE 2 block_align ++ packLE 2 bits_per_sample ++
      [100, 97, 116, 97] ++ packLE 4 data_size ++ pcm_data)
  else none

/-- Modelled from the spec: the repository has no WAV decoder under src (only
the encoder _pcm_to_wav); section 4.2 calls the output a standard
self-describing little-endian container, a 44-byte header followed by the raw
payload, and section 8 states the round-trip law against a decoder. wav_decode
therefore checks the RIFF, WAVE and data tags at their standard offsets, reads
the channel count (offset 22), sample rate (offset 24), bits per sample
(offset 34) and data size (offset 40) fields, and returns the payload after
the header together with those parameters. -/
def wav_decode (w : List Nat) : Option (List Nat × Nat × Nat × Nat) :=
  if w.take 4 = [82, 73, 70, 70] ∧ (w.drop 8).take 4 = [87, 65, 86, 69] ∧
      (w.drop 36).take 4 = [100, 97, 116, 97] ∧
      (w.drop 44).length = unpackLE ((w.drop 40).take 4) then
    some (w.drop 44, unpackLE ((w.drop 24).take 4), unpackLE ((w.drop 34).take 2),
      unpackLE ((w.drop 22).take 2))
  else none

theorem packLE_length (n v : Nat) : (packLE n v).length = n := by
  induction n generalizing v with
  | zero => rfl
  | succ k ih => simp [packLE, ih]

theorem unpackLE_packLE (n v : Nat) (h : v < 2 ^ (8 * n)) :
    unpackLE (packLE n v) = v := by
  induction n generalizing v with
  | zero => simp at h; simp [packLE, unpackLE, h]
  | succ k ih =>
    have hdiv : v / 256 < 2 ^ (8 * k) := by
      apply Nat.div_lt_of_lt_mul
      calc v < 2 ^ (8 * (k + 1)) := h
        _ = 256 * 2 ^ (8 * k) := by ring
    simp [packLE, unpackLE, ih _ hdiv]
    omega

theorem drop_append_len (l₁ l₂ : List Nat) (n : Nat) (h : l₁.length ≤ n) :
    (l₁ ++ l₂).drop n = l₂.drop (n - l₁.length) := by
  rw [List.drop_append_eq_append_drop, List.drop_eq_nil_of_le h]
  simp

theorem take_append_len (l₁ l₂ : List Nat) (n : Nat) (h : l₁.length = n) :
    (l₁ ++ l₂).take n = l₁ := by
  subst h; simp

/-- wavAssembled is the value pcm_to_wav builds, written right-associated with
the packed fields as parameters, for use by the header-layout lemmas. -/
def wavAssembled (s c r b a t d : Nat) (p : List Nat) : List Nat :=
  [82, 73, 70, 70] ++ (packLE 4 s ++ ([87, 65, 86, 69] ++ ([102, 109, 116, 32] ++
    (packLE 4 16 ++ (packLE 2 1 ++ (packLE 2 c ++ (packLE 4 r ++ (packLE 4 b ++
    (packLE 2 a ++ (packLE 2 t ++ ([100, 97, 116, 97] ++
    (packLE 4 d ++ p))))))))))))

theorem pcm_to_wav_eq_assembled (pcm : List Nat) (sr bits : Nat)
    (h1 : 36 + pcm.length < 2 ^ 32) (h2 : sr < 2 ^ 32)
    (h3 : sr * 1 * bits / 8 < 2 ^ 32) (h4 : 1 * bits / 8 < 2 ^ 16)
    (h5 : bits < 2 ^ 16) :
    pcm_to_wav pcm sr bits =
      some (wavAssembled (36 + pcm.length) 1 sr (sr * 1 * bits / 8)
        (1 * bits / 8) bits pcm.length pcm) := by
  simp only [pcm_to_wav]
  rw [if_pos ⟨h1, h2, h3, h4, h5⟩]
  simp [wavAssembled, List.append_assoc]

theorem wavAssembled_take4 (s c r b a t d : Nat) (p : List Nat) :
    (wavAssembled s c r b a t d p).take 4 = [82, 73, 70, 70] := by
  simp [wavAssembled, drop_append_len, take_append_len, packLE_length]

theorem wavAssembled_drop4 (s c r b a t d : Nat) (p : List Nat) :
    ((wavAssembled s c r b a t d p).drop 4).take 4 = packLE 4 s := by
  simp [wavAssembled, drop_append_len, take_append_len, packLE_length]

theorem wavAssembled_drop8 (s c r b a t d : Nat) (p : List Nat) :
    ((wavAssembled s c r b a t d p).drop 8).take 4 = [87, 65, 86, 69] := by
  simp [wavAssembled, drop_append_len, take_append_len, packLE_length]

theorem wavAssembled_drop22 (s c r b a t d : Nat) (p : List Nat) :
    ((wavAssembled s c r b a t d p).drop 22).take 2 = packLE 2 c := by
  simp [wavAssembled, drop_append_len, take_append_len, packLE_length]

theorem wavAssembled_drop24 (s c r b a t d : Nat) (p : List Nat) :
    ((wavAssembled s c r b a t d p).drop 24).take 4 = packLE 4 r := by
  simp [wavAssembled, drop_append_len, take_append_len, packLE_length]

theorem wavAssembled_drop28 (s c r b a t d : Nat) (p : List Nat) :
    ((wavAssembled s c r b a t d p).drop 28).take 4 = packLE 4 b := by
  simp [wavAssembled, drop_append_len, take_append_len, packLE_length]

theorem wavAssembled_drop32 (s c r b a t d : Nat) (p : List Nat) :
    ((wavAssembled s c r b a t d p).drop 32).take 2 = packLE 2 a := by
  simp [wavAssembled, drop_append_len, take_append_len, packLE_length]

theorem wavAssembled_drop34 (s c r b a t d : Nat) (p : List Nat) :
    ((wavAssembled s c r b a t d p).drop 34).take 2 = packLE 2 t := by
  simp [wavAssembled, drop_append_len, take_append_len, packLE_length]

theorem wavAssembled_drop36 (s c r b a t d : Nat) (p : List Nat) :
    ((wavAssembled s c r b a t d p).drop 36).take 4 = [100, 97, 116, 97] := by
  simp [wavAssembled, drop_append_len, take_append_len, packLE_length]

theorem wavAssembled_drop40 (s c r b a t d : Nat) (p : List Nat) :
    ((wavAssembled s c r b a t d p).drop 40).take 4 = packLE 4 d := by
  simp [wavAssembled, drop_append_len, take_append_len, packLE_length]

theorem wavAssembled_drop44 (s c r b a t d : Nat) (p : List Nat) :
    (wavAssembled s c r b a t d p).drop 44 = p := by
  simp [wavAssembled, drop_append_len, packLE_length]

theorem wavAssembled_length (s c r b a t d : Nat) (p : List Nat) :
    (wavAssembled s c r b a t d p).length = 44 + p.length := by
  simp [wavAssembled, packLE_length]
  omega

/-- C8: round-trip law for the WAV encoder. For every PCM byte sequence whose
data-size field fits the 32-bit header field, and valid sample rate and bit
depth (each fitting its header field), decoding the container produced by
_pcm_to_wav recovers exactly the payload, the sample rate, the bit depth, and
the encoder's channel count, which the source fixes at 1 (num_channels = 1;
the encoder takes no channel-count argument). -/
theorem wav_roundtrip (pcm : List Nat) (sr bits : Nat)
    (h1 : 36 + pcm.length < 2 ^ 32) (h2 : sr < 2 ^ 32)
    (h3 : sr * 1 * bits / 8 < 2 ^ 32) (h4 : 1 * bits / 8 < 2 ^ 16)
    (h5 : bits < 2 ^ 16) :
    (pcm_to_wav pcm sr bits).bind wav_decode = some (pcm, sr, bits, 1) := by
  rw [pcm_to_wav_eq_assembled pcm sr bits h1 h2 h3 h4 h5, Option.some_bind]
  rw [wav_decode]
  rw [if_pos]
  · rw [wavAssembled_drop44, wavAssembled_drop24, wavAssembled_drop34,
      wavAssembled_drop22]
    rw [unpackLE_packLE 4 sr (by omega)]
    rw [unpackLE_packLE 2 bits (by omega)]
    rw [unpackLE_packLE 2 1 (by norm_num)]
  · refine ⟨wavAssembled_take4 _ _ _ _ _ _ _ _, wavAssembled_drop8 _ _ _ _ _ _ _ _,
      wavAssembled_drop36 _ _ _ _ _ _ _ _, ?_⟩
    rw [wavAssembled_drop44, wavAssembled_drop40]
    rw [unpackLE_packLE 4 pcm.length (by omega)]

/-- C8 witness: the round trip evaluated at the payload [1, 2, 3] with sample
rate 16000 and 16 bits per sample. -/
theorem wav_roundtrip_witness :
    (pcm_to_wav [1, 2, 3] 16000 16).bind wav_decode = some ([1, 2, 3], 16000, 16, 1) :=
  wav_roundtrip [1, 2, 3] 16000 16 (by norm_num) (by norm_num) (by norm_num)
    (by norm_num) (by norm_num)

/-- C8 counterexample: the claim quantifies over every byte sequence, but for
a payload of 2 ^ 32 bytes the encoder fails (struct.pack refuses the size
fields, which no longer fit 32 bits), so no container is produced and the
round trip does not recover the payload. -/
theorem wav_roundtrip_counterexample :
    (pcm_to_wav (List.replicate (2 ^ 32) 0) 16000 16).bind wav_decode ≠
      some (List.replicate (2 ^ 32) 0, 16000, 16, 1) := by
  have h : pcm_to_wav (List.replicate (2 ^ 32) 0) 16000 16 = none := by
    simp only [pcm_to_wav, List.length_replicate]
    rw [if_neg]
    intro hc
    exact absurd hc.1 (by norm_num)
  rw [h, Option.none_bind]
  exact fun hc => Option.noConfusion hc

/-- C9: the WAV encoder is a function of its inputs (deterministic) and, for
every PCM byte sequence short enough that the size fields fit their 32-bit
header slots, and in-range sample rate and bit depth, it produces a 44-byte
little-endian header followed by the raw PCM payload verbatim: total output
length 44 + len(pcm), total-size field 36 + data size, channel count 1, the
sample rate, byte rate sampleRate * channels * bitsPerSample / 8, block
alignment channels * bitsPerSample / 8, the bit depth, and data size equal to
the PCM length, each read little-endian at its standard offset. -/
theorem wav_header_layout (pcm : List Nat) (sr bits : Nat)
    (h1 : 36 + pcm.length < 2 ^ 32) (h2 : sr < 2 ^ 32)
    (h3 : sr * 1 * bits / 8 < 2 ^ 32) (h4 : 1 * bits / 8 < 2 ^ 16)
    (h5 : bits < 2 ^ 16) :
    ∃ w, pcm_to_wav pcm sr bits = some w ∧
      w.length = 44 + pcm.length ∧
      w.drop 44 = pcm ∧
      unpackLE ((w.drop 4).take 4) = 36 + pcm.length ∧
      unpackLE ((w.drop 22).take 2) = 1 ∧
      unpackLE ((w.drop 24).take 4) = sr ∧
      unpackLE ((w.drop 28).take 4) = sr * 1 * bits / 8 ∧
      unpackLE ((w.drop 32).take 2) = 1 * bits / 8 ∧
      unpackLE ((w.drop 34).take 2) = bits ∧
      unpackLE ((w.drop 40).take 4) = pcm.length := by
  refine ⟨_, pcm_to_wav_eq_assembled pcm sr bits h1 h2 h3 h4 h5, ?_, ?_, ?_, ?_, ?_,
    ?_, ?_, ?_, ?_⟩
  · exact wavAssembled_length _ _ _ _ _ _ _ _
  · exact wavAssembled_drop44 _ _ _ _ _ _ _ _
  · rw [wavAssembled_drop4, unpackLE_packLE 4 _ (by omega)]
  · rw [wavAssembled_drop22, unpackLE_packLE 2 1 (by norm_num)]
  · rw [wavAssembled_drop24, unpackLE_packLE 4 sr (by omega)]
  · rw [wavAssembled_drop28, unpackLE_packLE 4 _ (by omega)]
  · rw [wavAssembled_drop32, unpackLE_packLE 2 _ (by omega)]
  · rw [wavAssembled_drop34, unpackLE_packLE 2 bits (by omega)]
  · rw [wavAssembled_drop40, unpackLE_packLE 4 pcm.length (by omega)]

/-- C9 witness: the header layout evaluated at the payload [9] with sample
rate 16000 and 16 bits per sample. -/
theorem wav_header_layout_witness :
    ∃ w, pcm_to_wav [9] 16000 16 = some w ∧
      w.length = 44 + ([9] : List Nat).length ∧
      w.drop 44 = [9] ∧
      unpackLE ((w.drop 4).take 4) = 36 + ([9] : List Nat).length ∧
      unpackLE ((w.drop 22).take 2) = 1 ∧
      unpackLE ((w.drop 24).take 4) = 16000 ∧
      unpackLE ((w.drop 28).take 4) = 16000 * 1 * 16 / 8 ∧
      unpackLE ((w.drop 32).take 2) = 1 * 16 / 8 ∧
      unpackLE ((w.drop 34).take 2) = 16 ∧
      unpackLE ((w.drop 40).take 4) = ([9] : List Nat).length :=
  wav_header_layout [9] 16000 16 (by norm_num) (by norm_num) (by norm_num)
    (by norm_num) (by norm_num)

/-- C9 counterexample: the claim quantifies over every PCM byte sequence, but
for a payload of 2 ^ 32 bytes the encoder produces no container at all:
struct.pack raises because 36 + data size does not fit the 32-bit total-size
field. -/
theorem wav_header_layout_counterexample :
    pcm_to_wav (List.replicate (2 ^ 32) 0) 16000 16 = none := by
  simp only [pcm_to_wav, List.length_replicate]
  rw [if_neg]
  intro hc
  exact absurd hc.1 (by norm_num)

/-- RecogOutcome models the environment of one recognition HTTP call: a
response with a status and a body (body = none stands for a body whose JSON
parse raises; body = some none for valid JSON without a text field;
body = some (some t) for a text field t), a client timeout, an aiohttp client
error, or any other exception raised inside the try block. -/
inductive RecogOutcome
  | response (status : Nat) (body : Option (Option String))
  | timeout
  | connectionError
  | otherError
  deriving DecidableEq

/-- Frame models the pipecat frame kinds WhisperSTTProcessor.process_frame
distinguishes; other frames fall into the catch-all constructor. -/
inductive Frame
  | userStartedSpeaking
  | userStoppedSpeaking
  | audioRaw (audio : List Nat)
  | transcription (text : String) (user_id : String) (timestamp : String)
  | endFrame
  | other (tag : Nat)
  deriving DecidableEq

/-- STTState is the mutable state of WhisperSTTProcessor: the _is_speaking
flag and the _audio_buffer list of chunk payloads (the _speech_start
timestamp only feeds logging and is not modelled). -/
structure STTState where
  is_speaking : Bool
  audio_buffer : List (List Nat)
  deriving DecidableEq

/-- Ev is one incoming frame together with, for a speech-stopped frame, the
environment of the recognition call it may trigger (the HTTP outcome and the
wall-clock string used for the timestamp). -/
inductive Ev
  | started
  | stopped (outcome : RecogOutcome) (now : String)
  | chunk (audio : List Nat)
  | endEv
  | otherEv (tag : Nat)
  deriving DecidableEq

/-- transcribe embeds WhisperSTTProcessor._transcribe: none when the buffer
is empty; on a response, none unless the status is exactly 200; a body whose
parse raises is caught and gives none; the text field (defaulted to the empty
string when absent) is stripped and an empty result gives none; timeouts,
connection errors and other exceptions are caught and give none. -/
def transcribe (audio_buffer : List (List Nat)) (outcome : RecogOutcome) :
    Option String :=
  if audio_buffer = [] then none
  else
    match outcome with
    | RecogOutcome.response status body =>
        if status ≠ 200 then none
        else
          match body with
          | none => none
          | some textField =>
              let text := pyStrip (textField.getD "")
              if text = "" then none else some text
    | RecogOutcome.timeout => none
    | RecogOutcome.connectionError => none
    | RecogOutcome.otherError => none

/-- process_frame_stt embeds WhisperSTTProcessor.process_frame: given the
state and one event it returns the new state, the frames pushed downstream in
order, and the payloads of the recognition calls issued (each payload is the
concatenation of the buffered chunks at flush time). On started the buffer is
reset and the flag set; on stopped the flag is cleared, the frame is forwarded
first, and if the buffer is non-empty one recognition call is made, a
Transcript pushed only when it returns text, and the buffer cleared
unconditionally afterward; an audio chunk is appended to the buffer only while
speaking and always forwarded; end and other frames are forwarded. -/
def process_frame_stt (s : STTState) (e : Ev) :
    STTState × List Frame × List (List Nat) :=
  match e with
  | Ev.started => (⟨true, []⟩, [Frame.userStartedSpeaking], [])
  | Ev.stopped outcome now =>
      if s.audio_buffer ≠ [] then
        match transcribe s.audio_buffer outcome with
        | some text =>
            (⟨false, []⟩, [Frame.userStoppedSpeaking,
              Frame.transcription text "user" now], [s.audio_buffer.flatten])
        | none => (⟨false, []⟩, [Frame.userStoppedSpeaking], [s.audio_buffer.flatten])
      else (⟨false, s.audio_buffer⟩, [Frame.userStoppedSpeaking], [])
  | Ev.chunk a =>
      if s.is_speaking then
        (⟨s.is_speaking, s.audio_buffer ++ [a]⟩, [Frame.audioRaw a], [])
      else (s, [Frame.audioRaw a], [])
  | Ev.endEv => (s, [Frame.endFrame], [])
  | Ev.otherEv t => (s, [Frame.other t], [])

/-- run_stt folds process_frame_stt over an event sequence, concatenating the
emitted frames and the recognition-call payloads in order. -/
def run_stt (s : STTState) (es : List Ev) :
    STTState × List Frame × List (List Nat) :=
  match es with
  | [] => (s, [], [])
  | e :: rest =>
      let r1 := process_frame_stt s e
      let r2 := run_stt r1.1 rest
      (r2.1, r1.2.1 ++ r2.2.1, r1.2.2 ++ r2.2.2)

/-- specCalls is the count stated by the spec, computed on the event list
alone: it tracks whether a session is collecting and whether at least one
chunk has been buffered since the last speech-started event, and counts the
speech-stopped events at which such a chunk exists. -/
def specCalls : Bool → Bool → List Ev → Nat
  | _, _, [] => 0
  | _, _, Ev.started :: es => specCalls true false es
  | _, h, Ev.stopped _ _ :: es => (if h then 1 else 0) + specCalls false false es
  | c, h, Ev.chunk _ :: es => specCalls c (h || c) es
  | c, h, Ev.endEv :: es => specCalls c h es
  | c, h, Ev.otherEv _ :: es => specCalls c h es

theorem run_stt_calls_length (es : List Ev) : ∀ (c : Bool) (buf : List (List Nat)),
    (run_stt ⟨c, buf⟩ es).2.2.length = specCalls c (!buf.isEmpty) es := by
  induction es with
  | nil => intro c buf; rfl
  | cons e rest ih =>
    intro c buf
    cases e with
    | started =>
        simp [run_stt, process_frame_stt, specCalls, ih]
    | stopped o now =>
        by_cases hb : buf = []
        · subst hb
          simp [run_stt, process_frame_stt, specCalls, ih]
        · cases htr : transcribe buf o <;>
            · simp [run_stt, process_frame_stt, specCalls, ih, hb, htr,
                List.isEmpty_iff]
              omega
    | chunk a =>
        cases c with
        | false =>
            simp [run_stt, process_frame_stt, specCalls, ih]
        | true =>
            have hne : (buf ++ [a]).isEmpty = false := by simp
            simp [run_stt, process_frame_stt, specCalls, ih, hne]
    | endEv => simp [run_stt, process_frame_stt, specCalls, ih]
    | otherEv t => simp [run_stt, process_frame_stt, specCalls, ih]

theorem run_stt_append (xs ys : List Ev) : ∀ s : STTState,
    run_stt s (xs ++ ys) =
      ((run_stt (run_stt s xs).1 ys).1,
       (run_stt s xs).2.1 ++ (run_stt (run_stt s xs).1 ys).2.1,
       (run_stt s xs).2.2 ++ (run_stt (run_stt s xs).1 ys).2.2) := by
  induction xs with
  | nil => intro s; simp [run_stt]
  | cons e rest ih =>
      intro s
      simp [run_stt, ih]

theorem run_stt_chunks (cs : List (List Nat)) : ∀ buf : List (List Nat),
    run_stt ⟨true, buf⟩ (cs.map Ev.chunk) =
      (⟨true, buf ++ cs⟩, cs.map Frame.audioRaw, []) := by
  induction cs with
  | nil => intro buf; simp [run_stt]
  | cons c rest ih =>
      intro buf
      simp [run_stt, process_frame_stt, ih]

theorem run_reset_suffix (s : STTState) (cs ds : List (List Nat))
    (o : RecogOutcome) (now : String) :
    (run_stt s ([Ev.started] ++ cs.map Ev.chunk ++ [Ev.started] ++
        ds.map Ev.chunk ++ [Ev.stopped o now])).2.2 =
      if ds.isEmpty then [] else [ds.flatten] := by
  simp only [List.append_assoc, List.singleton_append, List.cons_append]
  by_cases hds : ds = []
  · subst hds
    simp [run_stt, process_frame_stt, run_stt_append, run_stt_chunks]
  · cases htr : transcribe ds o <;>
      simp [run_stt, process_frame_stt, run_stt_append, run_stt_chunks, hds, htr,
        List.isEmpty_iff]

/-- C2: for every finite sequence of speech-started, speech-stopped and
audio-chunk events (end and pass-through frames included), the number of
recognition calls the aggregator issues equals the number of speech-stopped
events at which at least one chunk has been buffered since the last
speech-started event (specCalls, computed from the event list alone); and for
the sequence [started, stopped] with no chunks, no recognition call is made,
nothing beyond the two forwarded events is emitted, and the buffer is empty
afterward. -/
theorem recognition_call_count :
    (∀ es : List Ev, (run_stt ⟨false, []⟩ es).2.2.length = specCalls false false es) ∧
    (∀ (o : RecogOutcome) (now : String),
      run_stt ⟨false, []⟩ [Ev.started, Ev.stopped o now] =
        (⟨false, []⟩, [Frame.userStartedSpeaking, Frame.userStoppedSpeaking], [])) := by
  constructor
  · intro es
    simpa using run_stt_calls_length es false []
  · intro o now
    simp [run_stt, process_frame_stt]

/-- C1 (amended): the source treats exactly status 200 as success, not every
2xx status. For every recognition call (non-empty buffer at a speech-stopped
event) whose response has status 200 and a well-formed JSON body whose
stripped text field is non-empty, exactly one Transcript is emitted after the
forwarded stopped event, carrying the stripped text, the fixed speaker
identifier and the wall-clock string; and for any non-2xx status (hence
status different from 200) nothing is emitted beyond the forwarded event. -/
theorem transcript_on_success (buf : List (List Nat)) (tf now : String)
    (hbuf : buf ≠ []) :
    (pyStrip tf ≠ "" →
      process_frame_stt ⟨true, buf⟩
          (Ev.stopped (RecogOutcome.response 200 (some (some tf))) now) =
        (⟨false, []⟩,
         [Frame.userStoppedSpeaking, Frame.transcription (pyStrip tf) "user" now],
         [buf.flatten])) ∧
    (∀ status : Nat, status < 200 ∨ 300 ≤ status →
      process_frame_stt ⟨true, buf⟩
          (Ev.stopped (RecogOutcome.response status (some (some tf))) now) =
        (⟨false, []⟩, [Frame.userStoppedSpeaking], [buf.flatten])) := by
  constructor
  · intro ht
    simp [process_frame_stt, transcribe, hbuf, ht]
  · intro status hst
    have h200 : status ≠ 200 := by omega
    simp [process_frame_stt, transcribe, hbuf, h200]

/-- C1 witness: a successful 200 response with text field " hello " emits the
Transcript with the stripped text, and a 404 response emits nothing. -/
theorem transcript_on_success_witness :
    process_frame_stt ⟨true, [[7]]⟩
        (Ev.stopped (RecogOutcome.response 200 (some (some " hello "))) "1.0") =
      (⟨false, []⟩,
       [Frame.userStoppedSpeaking, Frame.transcription "hello" "user" "1.0"],
       [[7]]) ∧
    process_frame_stt ⟨true, [[7]]⟩
        (Ev.stopped (RecogOutcome.response 404 (some (some " hello "))) "1.0") =
      (⟨false, []⟩, [Frame.userStoppedSpeaking], [[7]]) := by
  have h := transcript_on_success [[7]] " hello " "1.0" (by decide)
  have h1 := h.1 (by decide)
  rw [show pyStrip " hello " = "hello" by decide] at h1
  exact ⟨h1, h.2 404 (by norm_num)⟩

/-- C1 counterexample: status 201 is a 2xx success status with a well-formed
body and non-empty trimmed text, yet the source compares the status to the
literal 200, so the recognition call fails and no Transcript is emitted, where
the claim requires exactly one. -/
theorem transcript_on_success_counterexample :
    process_frame_stt ⟨true, [[1]]⟩
        (Ev.stopped (RecogOutcome.response 201 (some (some "hello"))) "12345") =
      (⟨false, []⟩, [Frame.userStoppedSpeaking], [[1]]) := by
  decide

/-- isFailureOutcome singles out the recognition outcomes the claim calls
failures: a timeout, a connection failure, or a non-2xx response. -/
def isFailureOutcome : RecogOutcome → Prop
  | RecogOutcome.response status _ => status < 200 ∨ 300 ≤ status
  | RecogOutcome.timeout => True
  | RecogOutcome.connectionError => True
  | RecogOutcome.otherError => False

/-- C5: for every recognition call (non-empty buffer at a speech-stopped
event), the buffer is cleared afterward whatever the outcome, and when the
outcome is a timeout, a connection failure or a non-2xx response, zero
Transcript events are emitted (only the forwarded stopped event). The handler
is modelled as a total function: every exception path of the source is caught
inside _transcribe and returns None, so no exception escapes the per-event
handling. -/
theorem failure_clears_and_emits_nothing (buf : List (List Nat))
    (o : RecogOutcome) (now : String) (hbuf : buf ≠ []) :
    ((process_frame_stt ⟨true, buf⟩ (Ev.stopped o now)).1 = ⟨false, []⟩) ∧
    (isFailureOutcome o →
      process_frame_stt ⟨true, buf⟩ (Ev.stopped o now) =
        (⟨false, []⟩, [Frame.userStoppedSpeaking], [buf.flatten])) := by
  constructor
  · cases htr : transcribe buf o <;> simp [process_frame_stt, hbuf, htr]
  · intro hfail
    cases o with
    | response status body =>
        have h200 : status ≠ 200 := by
          rcases hfail with h | h <;> omega
        simp [process_frame_stt, transcribe, hbuf, h200]
    | timeout => simp [process_frame_stt, transcribe, hbuf]
    | connectionError => simp [process_frame_stt, transcribe, hbuf]
    | otherError => exact absurd hfail (by simp [isFailureOutcome])

/-- C5 witness: a timeout on a one-chunk buffer clears the buffer and emits
only the forwarded stopped event. -/
theorem failure_clears_and_emits_nothing_witness :
    ((process_frame_stt ⟨true, [[1]]⟩ (Ev.stopped RecogOutcome.timeout "1.0")).1 =
      ⟨false, []⟩) ∧
    process_frame_stt ⟨true, [[1]]⟩ (Ev.stopped RecogOutcome.timeout "1.0") =
      (⟨false, []⟩, [Frame.userStoppedSpeaking], [[1]]) := by
  have h := failure_clears_and_emits_nothing [[1]] RecogOutcome.timeout "1.0" (by decide)
  exact ⟨h.1, h.2 trivial⟩

/-- C6: a speech-started event received while already collecting resets the
buffer, so the chunks received before the second started event never appear
in the recognition payload assembled at the next flush: after any prefix of
events, for the suffix started, chunks cs, started, chunks ds, stopped, the
recognition calls are exactly those of the prefix plus, when ds is non-empty,
one call whose payload is the concatenation of ds alone (cs is absent
whatever it was). -/
theorem second_started_discards (pre : List Ev) (cs ds : List (List Nat))
    (o : RecogOutcome) (now : String) :
    (run_stt ⟨false, []⟩ (pre ++ [Ev.started] ++ cs.map Ev.chunk ++ [Ev.started] ++
        ds.map Ev.chunk ++ [Ev.stopped o now])).2.2 =
      (run_stt ⟨false, []⟩ pre).2.2 ++ (if ds.isEmpty then [] else [ds.flatten]) := by
  have hsplit : pre ++ [Ev.started] ++ cs.map Ev.chunk ++ [Ev.started] ++
      ds.map Ev.chunk ++ [Ev.stopped o now] =
      pre ++ ([Ev.started] ++ cs.map Ev.chunk ++ [Ev.started] ++
        ds.map Ev.chunk ++ [Ev.stopped o now]) := by
    simp [List.append_assoc]
  rw [hsplit, run_stt_append, run_reset_suffix]

/-- C7: an audio chunk is always forwarded downstream unchanged, is appended
to the buffer exactly when a session is collecting, and triggers no
recognition call; moreover a chunk received while idle leaves the whole run
unchanged except for the forwarded frame, so it never appears in any
recognition payload of any continuation. -/
theorem idle_chunk_passthrough (s : STTState) (a : List Nat) :
    process_frame_stt s (Ev.chunk a) =
      (⟨s.is_speaking,
        if s.is_speaking then s.audio_buffer ++ [a] else s.audio_buffer⟩,
       [Frame.audioRaw a], []) ∧
    (∀ es : List Ev, s.is_speaking = false →
      run_stt s (Ev.chunk a :: es) =
        ((run_stt s es).1, Frame.audioRaw a :: (run_stt s es).2.1,
         (run_stt s es).2.2)) := by
  constructor
  · obtain ⟨sp, sb⟩ := s
    cases sp <;> simp [process_frame_stt]
  · intro es hs
    simp [run_stt, process_frame_stt, hs]

/-- C7 witness: an idle chunk is forwarded, stays out of the buffer, and the
following stopped event still issues no recognition call. -/
theorem idle_chunk_passthrough_witness :
    process_frame_stt ⟨false, []⟩ (Ev.chunk [5]) =
      (⟨false, []⟩, [Frame.audioRaw [5]], []) ∧
    run_stt ⟨false, []⟩ (Ev.chunk [5] :: [Ev.stopped RecogOutcome.timeout "1.0"]) =
      ((run_stt ⟨false, []⟩ [Ev.stopped RecogOutcome.timeout "1.0"]).1,
       Frame.audioRaw [5] ::
         (run_stt ⟨false, []⟩ [Ev.stopped RecogOutcome.timeout "1.0"]).2.1,
       (run_stt ⟨false, []⟩ [Ev.stopped RecogOutcome.timeout "1.0"]).2.2) := by
  have h := idle_chunk_passthrough ⟨false, []⟩ [5]
  exact ⟨h.1, h.2 [Ev.stopped RecogOutcome.timeout "1.0"] rfl⟩

/-- TFrame models the pipecat frame kinds PiperTTSProcessor.process_frame
distinguishes; other frames fall into the catch-all constructor. -/
inductive TFrame
  | textFrame (text : String)
  | ttsStarted
  | ttsAudioRaw (audio : List Nat) (sample_rate : Nat) (num_channels : Nat)
  | ttsStopped
  | endFrame
  | other (tag : Nat)
  deriving DecidableEq

/-- SynthResult models one invocation of the synthesis engine on a text: the
finite list of PCM chunks it yields, or an exception raised while
synthesizing (caught by the try block of the source after the started marker
was pushed). -/
inductive SynthResult
  | chunks (parts : List (List Nat))
  | raisesError
  deriving DecidableEq

/-- synthesize_and_emit embeds PiperTTSProcessor._synthesize_and_emit: the
started marker is pushed first, then all chunks are synthesized and
concatenated; an empty concatenation logs an error and returns (no audio, no
stopped marker), otherwise one audio frame with the full payload at the
engine sample rate and one channel is pushed, then the stopped marker; an
engine exception is caught after the started marker was already pushed. -/
def synthesize_and_emit (result : SynthResult) (sample_rate : Nat) : List TFrame :=
  match result with
  | SynthResult.raisesError => [TFrame.ttsStarted]
  | SynthResult.chunks parts =>
      let pcm_data := parts.flatten
      if pcm_data = [] then [TFrame.ttsStarted]
      else [TFrame.ttsStarted, TFrame.ttsAudioRaw pcm_data sample_rate 1,
        TFrame.ttsStopped]

/-- process_frame_tts embeds PiperTTSProcessor.process_frame: a TextFrame is
stripped and, when non-empty, synthesized (the TextFrame itself is never
pushed); every other frame is pushed downstream unchanged. The engine is a
parameter mapping the stripped text to its synthesis result. -/
def process_frame_tts (voice : String → SynthResult) (sample_rate : Nat)
    (frame : TFrame) : List TFrame :=
  match frame with
  | TFrame.textFrame t =>
      let text := pyStrip t
      if text = "" then [] else synthesize_and_emit (voice text) sample_rate
  | f => [f]

/-- isGeneratedTTS holds exactly for the frame kinds the synthesis stage
itself generates: the started marker, the audio frame, the stopped marker. -/
def isGeneratedTTS : TFrame → Bool
  | TFrame.ttsStarted => true
  | TFrame.ttsAudioRaw _ _ _ => true
  | TFrame.ttsStopped => true
  | _ => false

/-- C3: a text unit whose stripped text is empty emits zero events; a text
unit whose stripped text is non-empty, when the engine yields chunks with a
non-empty concatenation, emits exactly the started marker, then one audio
frame carrying the full concatenated payload at the engine sample rate with
one channel, then the stopped marker, in that order. -/
theorem synthesis_bracket (voice : String → SynthResult) (sr : Nat) (t : String) :
    (pyStrip t = "" → process_frame_tts voice sr (TFrame.textFrame t) = []) ∧
    (∀ parts : List (List Nat), pyStrip t ≠ "" → voice (pyStrip t) = SynthResult.chunks parts →
      parts.flatten ≠ [] →
      process_frame_tts voice sr (TFrame.textFrame t) =
        [TFrame.ttsStarted, TFrame.ttsAudioRaw parts.flatten sr 1,
         TFrame.ttsStopped]) := by
  constructor
  · intro ht
    simp [process_frame_tts, ht]
  · intro parts ht hv hjoin
    simp [process_frame_tts, synthesize_and_emit, ht, hv, hjoin]

/-- C3 witness: whitespace-only text emits nothing; the text " hi " with an
engine yielding the chunks [1] and [2, 3] emits the started marker, one audio
frame with payload [1, 2, 3], and the stopped marker. -/
theorem synthesis_bracket_witness :
    process_frame_tts (fun _ => SynthResult.chunks [[1], [2, 3]]) 22050
        (TFrame.textFrame "  ") = [] ∧
    process_frame_tts (fun _ => SynthResult.chunks [[1], [2, 3]]) 22050
        (TFrame.textFrame " hi ") =
      [TFrame.ttsStarted, TFrame.ttsAudioRaw [1, 2, 3] 22050 1,
       TFrame.ttsStopped] := by
  have h1 := (synthesis_bracket (fun _ => SynthResult.chunks [[1], [2, 3]]) 22050 "  ").1
  have h2 := (synthesis_bracket (fun _ => SynthResult.chunks [[1], [2, 3]]) 22050 " hi ").2
  exact ⟨h1 (by decide), h2 [[1], [2, 3]] (by decide) rfl (by decide)⟩

/-- C4 (amended): when the stripped text is non-empty and synthesis yields
zero chunks (empty concatenated payload), the source has already pushed the
started marker before synthesizing, so exactly the started marker is emitted
and nothing further: no audio frame and no stopped marker. -/
theorem empty_synthesis_markers (voice : String → SynthResult) (sr : Nat)
    (t : String) (parts : List (List Nat)) (ht : pyStrip t ≠ "")
    (hv : voice (pyStrip t) = SynthResult.chunks parts)
    (hjoin : parts.flatten = []) :
    process_frame_tts voice sr (TFrame.textFrame t) = [TFrame.ttsStarted] := by
  simp [process_frame_tts, synthesize_and_emit, ht, hv, hjoin]

/-- C4 witness: the text "hi" with an engine yielding zero chunks emits
exactly the started marker. -/
theorem empty_synthesis_markers_witness :
    process_frame_tts (fun _ => SynthResult.chunks []) 22050
        (TFrame.textFrame "hi") = [TFrame.ttsStarted] :=
  empty_synthesis_markers (fun _ => SynthResult.chunks []) 22050 "hi" []
    (by decide) rfl rfl

/-- C4 counterexample: the claim says that for non-empty text with zero
synthesized chunks no marker at all is emitted, but the source pushes the
started marker before invoking the engine, so the output is the started
marker rather than the empty list. -/
theorem empty_synthesis_markers_counterexample :
    process_frame_tts (fun _ => SynthResult.chunks []) 22050
        (TFrame.textFrame "hi") ≠ [] := by
  decide

/-- C10: a TextFrame is consumed, never forwarded: every frame the stage
emits on a TextFrame is stage-generated (a started marker, an audio frame or
a stopped marker, never a TextFrame), whatever the engine does; and every
other frame kind is forwarded downstream unchanged. -/
theorem text_frame_consumed (voice : String → SynthResult) (sr : Nat) :
    (∀ t : String,
      (process_frame_tts voice sr (TFrame.textFrame t)).all isGeneratedTTS = true) ∧
    process_frame_tts voice sr TFrame.endFrame = [TFrame.endFrame] ∧
    process_frame_tts voice sr TFrame.ttsStarted = [TFrame.ttsStarted] ∧
    process_frame_tts voice sr TFrame.ttsStopped = [TFrame.ttsStopped] ∧
    (∀ (a : List Nat) (r c : Nat),
      process_frame_tts voice sr (TFrame.ttsAudioRaw a r c) =
        [TFrame.ttsAudioRaw a r c]) ∧
    (∀ n : Nat, process_frame_tts voice sr (TFrame.other n) = [TFrame.other n]) := by
  refine ⟨?_, rfl, rfl, rfl, fun a r c => rfl, fun n => rfl⟩
  intro t
  by_cases ht : pyStrip t = ""
  · simp [process_frame_tts, ht]
  · cases hv : voice (pyStrip t) with
    | chunks parts =>
        by_cases hjoin : parts.flatten = [] <;>
          simp [process_frame_tts, synthesize_and_emit, ht, hv, hjoin, isGeneratedTTS]
    | raisesError =>
        simp [process_frame_tts, synthesize_and_emit, ht, hv, isGeneratedTTS]

end Buddy
